import Mathlib

/-!
Verification of the context_chat_backend repository's core glue logic:
the R2R upsert-cache prune batch (scripts/prune_r2r_upsert_cache.py) and
the one-shot query chain (context_chat_backend/chain/one_shot.py).

External collaborators (the HTTP client, the vector store, the LLM) are
modelled as function parameters; machinery the source delegates to them
is out of scope.  Python dicts are modelled as association lists in
insertion order, matching CPython's dict iteration order.
-/

namespace Py

/-- Python's `str.lower()`, modelled character-by-character (structurally,
unlike `String.toLower`, so that it reduces definitionally). -/
def strLower (s : String) : String :=
  ⟨s.data.map Char.toLower⟩

/-- Python's `str.strip()`: drop whitespace from both ends, modelled
character-by-character (structurally, unlike `String.trim`, so that it
reduces definitionally). -/
def pyStrip (s : String) : String :=
  ⟨((s.data.dropWhile Char.isWhitespace).reverse.dropWhile
      Char.isWhitespace).reverse⟩

/-- Python's `a or b` on an optional string: `a` unless it is `None` or
empty (falsy). -/
def pyOrStr (a : Option String) (b : Option String) : Option String :=
  match a with
  | some s => if s ≠ "" then some s else b
  | none => b

/-- Python's `a or b` where `a` is an optional string and `b` a plain
string: `b` when `a` is `None` or empty (falsy). -/
def pyOrS (a : Option String) (b : String) : String :=
  match a with
  | some s => if s ≠ "" then s else b
  | none => b

end Py

namespace PruneCache

open Py

/-- One record of the upsert cache (a JSON object value).  Only the fields
the script reads are modelled; `doc_id` is `none` when the key is absent. -/
structure CacheEntry where
  doc_id : Option String
  filename : Option String
deriving DecidableEq

/-- The cache file's top level: a JSON object mapping digest to record,
in insertion order. -/
abbrev Cache := List (String × CacheEntry)

/-- Outcome of one HTTP GET `/v3/documents/{doc_id}`, as the script observes
it.  `exn c` is an `httpx.HTTPError`; `c` is the value of
`getattr(getattr(exc, "response", None), "status_code", 0) or 0` (0 when the
exception carries no response).  `resp code ing fb` is a response with HTTP
status `code` whose parsed `results` object carries `ingestion_status = ing`
and `status = fb` (`none` for an absent key, and also when the body fails to
parse as JSON). -/
inductive RemoteResult where
  | exn (respCode : Nat)
  | resp (code : Nat) (ing : Option String) (fb : Option String)
deriving DecidableEq

/-- Function `get_doc_status(client, doc_id)`: returns `(ingestion_status, http_status)`;
the ingestion status is `None` for 404, for any status ≥ 400, and on an
`httpx.HTTPError`. -/
def get_doc_status (remote : String → RemoteResult) (doc_id : String) :
    Option String × Nat :=
  match remote doc_id with
  | .exn c => (none, c)
  | .resp code ing fb =>
    if code = 404 then (none, 404)
    else if 400 ≤ code then (none, code)
    else (pyOrStr ing fb, code)

/-- Expression `str(entry.get("doc_id") or "").strip()`. -/
def docIdOf (e : CacheEntry) : String :=
  pyStrip (e.doc_id.getD "")

/-- Condition `status and status.lower() in {"failed", "error"}` from the scan loop. -/
def statusFailed : Option String → Bool
  | some s => s ≠ "" && (strLower s = "failed" || strLower s = "error")
  | none => false

/-- The loop body's decision to append the digest to `to_remove`:
blank `doc_id`, HTTP 404, or a truthy status whose lowercase form is
`failed` or `error`. -/
def markedB (remote : String → RemoteResult) (e : CacheEntry) : Bool :=
  if docIdOf e = "" then true
  else if (get_doc_status remote (docIdOf e)).2 = 404 then true
  else statusFailed (get_doc_status remote (docIdOf e)).1

/-- Accumulators of the scan loop in `main`: the digests slated for removal,
the counters printed in the report, and (for the frame property) the list of
doc_ids actually queried against the remote endpoint. -/
structure ScanResult where
  to_remove : List String
  checked : Nat
  failed : Nat
  not_found : Nat
  calls : List String
deriving DecidableEq

/-- The `for digest, entry in list(cache.items())` loop of `main`, transcribed
with explicit accumulators.  A blank `doc_id` appends the digest with no
remote call; otherwise the status endpoint is queried and 404 or a
failed/error ingestion status appends the digest; any other outcome leaves
the accumulators unchanged apart from `checked` and `calls`. -/
def scanLoop (remote : String → RemoteResult) :
    Cache → ScanResult → ScanResult
  | [], acc => acc
  | (digest, entry) :: rest, acc =>
    let doc_id := docIdOf entry
    if doc_id = "" then
      scanLoop remote rest
        ⟨acc.to_remove ++ [digest], acc.checked + 1, acc.failed, acc.not_found,
         acc.calls⟩
    else if (get_doc_status remote doc_id).2 = 404 then
      scanLoop remote rest
        ⟨acc.to_remove ++ [digest], acc.checked + 1, acc.failed,
         acc.not_found + 1, acc.calls ++ [doc_id]⟩
    else if statusFailed (get_doc_status remote doc_id).1 then
      scanLoop remote rest
        ⟨acc.to_remove ++ [digest], acc.checked + 1, acc.failed + 1,
         acc.not_found, acc.calls ++ [doc_id]⟩
    else
      scanLoop remote rest
        ⟨acc.to_remove, acc.checked + 1, acc.failed, acc.not_found,
         acc.calls ++ [doc_id]⟩

/-- The scan phase of `main`, started from empty accumulators. -/
def scan (remote : String → RemoteResult) (cache : Cache) : ScanResult :=
  scanLoop remote cache ⟨[], 0, 0, 0, []⟩

/-- The claim's removal condition, written as the spec states it: `doc_id`
absent or blank, or the status endpoint reports HTTP 404, or the reported
ingestion status is `failed`/`error` case-insensitively. -/
def claimRemovalB (remote : String → RemoteResult) (e : CacheEntry) : Bool :=
  docIdOf e = "" ||
  (get_doc_status remote (docIdOf e)).2 = 404 ||
  (match (get_doc_status remote (docIdOf e)).1 with
   | some s => strLower s = "failed" || strLower s = "error"
   | none => false)

theorem strLower_ne_empty_of_failed (s : String)
    (h : strLower s = "failed" ∨ strLower s = "error") : s ≠ "" := by
  rintro rfl
  rcases h with h | h <;> exact absurd h (by decide)

theorem statusFailed_eq_claim (o : Option String) :
    statusFailed o =
      (match o with
       | some s => strLower s = "failed" || strLower s = "error"
       | none => false) := by
  cases o with
  | none => rfl
  | some s =>
    simp only [statusFailed]
    by_cases hfe : strLower s = "failed" ∨ strLower s = "error"
    · have hne : s ≠ "" := strLower_ne_empty_of_failed s hfe
      rcases hfe with h | h <;> simp [h, hne]
    · push_neg at hfe
      simp [hfe.1, hfe.2]

theorem markedB_eq_claimRemovalB (remote : String → RemoteResult)
    (e : CacheEntry) : markedB remote e = claimRemovalB remote e := by
  unfold markedB claimRemovalB
  rw [statusFailed_eq_claim]
  by_cases hd : docIdOf e = ""
  · simp [hd]
  · by_cases h4 : (get_doc_status remote (docIdOf e)).2 = 404
    · simp [hd, h4]
    · simp [hd, h4]

theorem scanLoop_spec (remote : String → RemoteResult) (l : Cache)
    (acc : ScanResult) :
    (scanLoop remote l acc).to_remove =
      acc.to_remove ++ (l.filter (fun p => markedB remote p.2)).map Prod.fst ∧
    (scanLoop remote l acc).checked = acc.checked + l.length ∧
    (scanLoop remote l acc).calls =
      acc.calls ++ (l.filter (fun p => docIdOf p.2 ≠ "")).map
        (fun p => docIdOf p.2) := by
  induction l generalizing acc with
  | nil => simp [scanLoop]
  | cons hd tl ih =>
    obtain ⟨digest, entry⟩ := hd
    by_cases hblank : docIdOf entry = ""
    · have hm : markedB remote entry = true := by simp [markedB, hblank]
      simp only [scanLoop]
      rw [if_pos hblank]
      rcases ih ⟨acc.to_remove ++ [digest], acc.checked + 1, acc.failed,
        acc.not_found, acc.calls⟩ with ⟨h1, h2, h3⟩
      refine ⟨?_, ?_, ?_⟩
      · rw [h1]; simp [List.filter_cons, hm, List.append_assoc]
      · rw [h2]; simp; omega
      · rw [h3]; simp [List.filter_cons, hblank]
    · by_cases h4 : (get_doc_status remote (docIdOf entry)).2 = 404
      · have hm : markedB remote entry = true := by
          simp [markedB, hblank, h4]
        simp only [scanLoop]
        rw [if_neg hblank, if_pos h4]
        rcases ih ⟨acc.to_remove ++ [digest], acc.checked + 1, acc.failed,
          acc.not_found + 1, acc.calls ++ [docIdOf entry]⟩ with ⟨h1, h2, h3⟩
        refine ⟨?_, ?_, ?_⟩
        · rw [h1]; simp [List.filter_cons, hm, List.append_assoc]
        · rw [h2]; simp; omega
        · rw [h3]; simp [List.filter_cons, hblank, List.append_assoc]
      · by_cases hf : statusFailed (get_doc_status remote (docIdOf entry)).1 = true
        · have hm : markedB remote entry = true := by
            simp [markedB, hblank, h4, hf]
          simp only [scanLoop]
          rw [if_neg hblank, if_neg h4, if_pos hf]
          rcases ih ⟨acc.to_remove ++ [digest], acc.checked + 1, acc.failed + 1,
            acc.not_found, acc.calls ++ [docIdOf entry]⟩ with ⟨h1, h2, h3⟩
          refine ⟨?_, ?_, ?_⟩
          · rw [h1]; simp [List.filter_cons, hm, List.append_assoc]
          · rw [h2]; simp; omega
          · rw [h3]; simp [List.filter_cons, hblank, List.append_assoc]
        · have hm : markedB remote entry = false := by
            simp [markedB, hblank, h4]
            simpa using hf
          simp only [scanLoop]
          rw [if_neg hblank, if_neg h4, if_neg hf]
          rcases ih ⟨acc.to_remove, acc.checked + 1, acc.failed,
            acc.not_found, acc.calls ++ [docIdOf entry]⟩ with ⟨h1, h2, h3⟩
          refine ⟨?_, ?_, ?_⟩
          · rw [h1]; simp [List.filter_cons, hm]
          · rw [h2]; simp; omega
          · rw [h3]; simp [List.filter_cons, hblank, List.append_assoc]

theorem scan_to_remove (remote : String → RemoteResult) (cache : Cache) :
    (scan remote cache).to_remove =
      (cache.filter (fun p => markedB remote p.2)).map Prod.fst := by
  have h := scanLoop_spec remote cache ⟨[], 0, 0, 0, []⟩
  simpa [scan] using h.1

theorem scan_checked (remote : String → RemoteResult) (cache : Cache) :
    (scan remote cache).checked = cache.length := by
  have h := scanLoop_spec remote cache ⟨[], 0, 0, 0, []⟩
  simpa [scan] using h.2.1

theorem scan_calls (remote : String → RemoteResult) (cache : Cache) :
    (scan remote cache).calls =
      (cache.filter (fun p => docIdOf p.2 ≠ "")).map (fun p => docIdOf p.2) := by
  have h := scanLoop_spec remote cache ⟨[], 0, 0, 0, []⟩
  simpa [scan] using h.2.2

/-- How reading the cache file turns out: the file is missing, `json.load`
raises (malformed JSON), the parsed top level is not a JSON object, or a JSON
object with the given entries. -/
inductive CacheLoad where
  | missing
  | malformed
  | nonDict
  | dict (cache : Cache)
deriving DecidableEq

/-- A filesystem side effect of `main`, in program order:
`shutil.copy2(cache_path, backup)`, the write of the temporary file inside
`save_cache`, and the `tmp.replace(path)` rename. -/
inductive FsEvent where
  | backupCopy (src : String) (dst : String)
  | writeTmp (path : String) (content : Cache)
  | replaceOver (tmp : String) (dst : String)
deriving DecidableEq

/-- How a run of `main` ends: a `return code` (`exited`, with the printed
`removing=` count when the scan was reached, the remote calls issued and the
filesystem events performed, in order), or an exception propagating out of
`main` uncaught (`raised`, from `json.load`; the interpreter then exits
non-zero with a traceback, not through the `return` path). -/
inductive RunOutcome where
  | exited (code : Nat) (reported : Option Nat) (remoteCalls : List String)
      (fsEvents : List FsEvent)
  | raised (remoteCalls : List String) (fsEvents : List FsEvent)
deriving DecidableEq

/-- The exit code of a run, `none` when `main` raised instead of returning. -/
def exitCode : RunOutcome → Option Nat
  | .exited c _ _ _ => some c
  | .raised _ _ => none

/-- The filesystem events of a run. -/
def fsEventsOf : RunOutcome → List FsEvent
  | .exited _ _ _ ev => ev
  | .raised _ ev => ev

/-- The remote status calls of a run. -/
def remoteCallsOf : RunOutcome → List String
  | .exited _ _ c _ => c
  | .raised c _ => c

/-- Function `main` of scripts/prune_r2r_upsert_cache.py, from the `cache_path.exists()`
check onward, as a function of the load outcome, the dry-run flag, the remote
endpoint and the backup timestamp `ts` (`time.strftime("%Y%m%d-%H%M%S")`).
Missing file and non-dict top level return 2 before the HTTP client is built;
a `json.load` error propagates uncaught.  Otherwise the scan runs; under
`--dry-run` `main` returns 0 with no file changes; with a non-empty removal
list it copies the cache to `<path>.bak.<ts>` (`Path.with_suffix` on
`path.suffix + ".bak." + ts`, which appends to the full name), pops the
marked digests and rewrites the file via `<path>.tmp` then `replace`. -/
def mainRun (cachePath : String) (load : CacheLoad) (dryRun : Bool)
    (remote : String → RemoteResult) (ts : String) : RunOutcome :=
  match load with
  | .missing => .exited 2 none [] []
  | .malformed => .raised [] []
  | .nonDict => .exited 2 none [] []
  | .dict cache =>
    let res := scan remote cache
    if dryRun then .exited 0 (some res.to_remove.length) res.calls []
    else if res.to_remove.isEmpty then
      .exited 0 (some res.to_remove.length) res.calls []
    else
      let backup := cachePath ++ ".bak." ++ ts
      let pruned := cache.filter (fun p => !res.to_remove.contains p.1)
      .exited 0 (some res.to_remove.length) res.calls
        [.backupCopy cachePath backup,
         .writeTmp (cachePath ++ ".tmp") pruned,
         .replaceOver (cachePath ++ ".tmp") cachePath]

/-- The pruned mapping `main` writes back: the original entries minus the
digests collected in `to_remove` (the `cache.pop(digest, None)` loop). -/
def prunedCache (remote : String → RemoteResult) (cache : Cache) : Cache :=
  cache.filter (fun p => !(scan remote cache).to_remove.contains p.1)

/-- C1: in the cache-prune scan, a record is marked for removal exactly when
its `doc_id` is absent or blank, or the remote status endpoint reports
HTTP 404 for it, or the remote-reported ingestion status lowercases to
`failed` or `error`; the remote endpoint is queried exactly for the
non-blank doc_ids (so a blank entry triggers no remote call), and every
entry of the batch is examined (no outcome aborts the scan). -/
theorem C1_scan_removal_condition (remote : String → RemoteResult)
    (cache : Cache) :
    (scan remote cache).to_remove =
      (cache.filter (fun p => claimRemovalB remote p.2)).map Prod.fst ∧
    (scan remote cache).calls =
      (cache.filter (fun p => docIdOf p.2 ≠ "")).map (fun p => docIdOf p.2) ∧
    (scan remote cache).checked = cache.length := by
  refine ⟨?_, scan_calls remote cache, scan_checked remote cache⟩
  rw [scan_to_remove]
  congr 1
  exact List.filter_congr fun p _ => markedB_eq_claimRemovalB remote p.2

/-- C2 counterexample: on a cache file whose contents are malformed JSON,
`main` does not exit with code 2 — `json.load` raises and the exception
propagates uncaught, so the claim that every structurally invalid cache file
yields exit code 2 is false. -/
theorem C2_counterexample :
    exitCode (mainRun "cache.json" .malformed false
      (fun _ => .resp 200 none none) "20260101-000000") ≠ some 2 := by
  simp [mainRun, exitCode]

/-- C2 amended: `main` returns exit code 2 when the cache file is missing or
its top level is not a JSON object, in both cases before any remote call or
file change; malformed JSON instead raises out of `main` uncaught (a non-zero
exit, but not through the return-code path), also before any remote call; and
a structurally valid cache always returns 0, including when nothing is
removed. -/
theorem C2_exit_codes (path : String) (dryRun : Bool)
    (remote : String → RemoteResult) (ts : String) :
    (exitCode (mainRun path .missing dryRun remote ts) = some 2 ∧
     remoteCallsOf (mainRun path .missing dryRun remote ts) = [] ∧
     fsEventsOf (mainRun path .missing dryRun remote ts) = []) ∧
    (exitCode (mainRun path .nonDict dryRun remote ts) = some 2 ∧
     remoteCallsOf (mainRun path .nonDict dryRun remote ts) = [] ∧
     fsEventsOf (mainRun path .nonDict dryRun remote ts) = []) ∧
    (mainRun path .malformed dryRun remote ts = .raised [] []) ∧
    (∀ cache : Cache,
      exitCode (mainRun path (.dict cache) dryRun remote ts) = some 0) := by
  refine ⟨⟨rfl, rfl, rfl⟩, ⟨rfl, rfl, rfl⟩, rfl, ?_⟩
  intro cache
  by_cases hd : dryRun
  · simp [mainRun, hd, exitCode]
  · by_cases he : (scan remote cache).to_remove.isEmpty
    · simp [mainRun, hd, he, exitCode]
    · simp [mainRun, hd, he, exitCode]

/-- C4: in a non-dry-run with at least one marked record, `main` performs
exactly three filesystem events in this order: copy the original cache file
to `<path>.bak.<ts>`, write the pruned mapping to `<path>.tmp`, and replace
the original with the temporary file — so the backup exists before the cache
file is touched and the cache file itself is only ever changed by the atomic
replace. -/
theorem C4_backup_then_atomic_write (path : String) (cache : Cache)
    (remote : String → RemoteResult) (ts : String)
    (h : (scan remote cache).to_remove ≠ []) :
    mainRun path (.dict cache) false remote ts =
      .exited 0 (some (scan remote cache).to_remove.length)
        (scan remote cache).calls
        [.backupCopy path (path ++ ".bak." ++ ts),
         .writeTmp (path ++ ".tmp") (prunedCache remote cache),
         .replaceOver (path ++ ".tmp") path] := by
  have he : (scan remote cache).to_remove.isEmpty = false := by
    simpa [List.isEmpty_iff] using h
  simp [mainRun, he, prunedCache]

/-- C4 witness: a one-entry cache whose document the remote reports as 404
goes through the backup-then-atomic-write sequence. -/
theorem C4_witness :
    (scan (fun _ => RemoteResult.resp 404 none none)
        [("d1", ⟨some "x1", some "a.txt"⟩)]).to_remove ≠ [] ∧
    mainRun "cache.json" (.dict [("d1", ⟨some "x1", some "a.txt"⟩)]) false
        (fun _ => RemoteResult.resp 404 none none) "20260101-000000" =
      .exited 0
        (some (scan (fun _ => RemoteResult.resp 404 none none)
          [("d1", ⟨some "x1", some "a.txt"⟩)]).to_remove.length)
        (scan (fun _ => RemoteResult.resp 404 none none)
          [("d1", ⟨some "x1", some "a.txt"⟩)]).calls
        [.backupCopy "cache.json" ("cache.json" ++ ".bak." ++ "20260101-000000"),
         .writeTmp ("cache.json" ++ ".tmp")
           (prunedCache (fun _ => RemoteResult.resp 404 none none)
             [("d1", ⟨some "x1", some "a.txt"⟩)]),
         .replaceOver ("cache.json" ++ ".tmp") "cache.json"] :=
  ⟨by decide, C4_backup_then_atomic_write "cache.json"
    [("d1", ⟨some "x1", some "a.txt"⟩)]
    (fun _ => RemoteResult.resp 404 none none) "20260101-000000" (by decide)⟩

/-- C5: under `--dry-run`, whatever the scan finds, `main` performs no
filesystem event at all (no backup, no write to the cache file), still
reports the count of would-be removals, and returns 0. -/
theorem C5_dry_run_frame (path : String) (cache : Cache)
    (remote : String → RemoteResult) (ts : String) :
    mainRun path (.dict cache) true remote ts =
      .exited 0 (some (scan remote cache).to_remove.length)
        (scan remote cache).calls [] := by
  simp [mainRun]

/-- C6: the prune is idempotent — against the cache that a first run wrote
back, a second run with the remote answering identically marks nothing for
removal, performs no filesystem event, and would write back the same
mapping (it returns 0 through the "no entries to remove" path). -/
theorem C6_prune_idempotent (path : String) (cache : Cache)
    (remote : String → RemoteResult) (ts : String) :
    (scan remote (prunedCache remote cache)).to_remove = [] ∧
    prunedCache remote (prunedCache remote cache) = prunedCache remote cache ∧
    mainRun path (.dict (prunedCache remote cache)) false remote ts =
      .exited 0 (some 0) (scan remote (prunedCache remote cache)).calls [] := by
  have hmem : ∀ p ∈ prunedCache remote cache, markedB remote p.2 = false := by
    intro p hp
    unfold prunedCache at hp
    rw [List.mem_filter] at hp
    obtain ⟨hpc, hnc⟩ := hp
    by_contra hmark
    rw [Bool.not_eq_false] at hmark
    have hin : p.1 ∈ (scan remote cache).to_remove := by
      rw [scan_to_remove]
      exact List.mem_map.2 ⟨p, List.mem_filter.2 ⟨hpc, hmark⟩, rfl⟩
    rw [← List.elem_iff] at hin
    simp [List.contains] at hnc
    simp [List.elem_iff.1 hin] at hnc
  have hzero : (scan remote (prunedCache remote cache)).to_remove = [] := by
    rw [scan_to_remove]
    have hnilf : (prunedCache remote cache).filter
        (fun p => markedB remote p.2) = [] := by
      rw [List.filter_eq_nil_iff]
      intro p hp
      simp [hmem p hp]
    rw [hnilf, List.map_nil]
  refine ⟨hzero, ?_, ?_⟩
  · have houter : prunedCache remote (prunedCache remote cache) =
        (prunedCache remote cache).filter
          (fun p => !(scan remote (prunedCache remote cache)).to_remove.contains
            p.1) := rfl
    rw [houter, hzero]
    apply List.filter_eq_self.2
    intro p _
    rfl
  · have he : (scan remote (prunedCache remote cache)).to_remove.isEmpty
        = true := by
      rw [hzero]; rfl
    simp [mainRun, he, hzero]

end PruneCache

namespace OneShot

open Py

/-- One retrieved chunk as the chain sees it: the text content and the
`source` entry of its metadata (`none` when the key is absent). -/
structure RetrievedDocument where
  content : String
  source : Option String
deriving DecidableEq

/-- The result of one query: the trimmed LLM answer and the deduplicated
source list. -/
structure LLMOutput where
  output : String
  sources : List String
deriving DecidableEq

/-- One call to `llm.invoke(prompt, stop=..., userid=...)`, recorded so that
theorems can speak about whether and how the LLM collaborator was
invoked. -/
structure InvokeEvent where
  prompt : String
  stop : Option (List String)
  userid : String
deriving DecidableEq

/-- The two exception kinds the chain raises: `ContextException` (the spec's
`NoContextError`) carrying its message, and the `ValueError` raised by the
query-pruning helper when even the bare query does not fit (the spec's
`ContextTooSmallError`). -/
inductive ChainError where
  | contextError (msg : String)
  | contextTooSmall
deriving DecidableEq

/-- The module-level `_LLM_TEMPLATE` of one_shot.py, verbatim. -/
def LLM_TEMPLATE : String :=
  "Answer based only on this context and do not add any imaginative details. Make sure to use the same language as the question in your answer.\n{context}\n\n{question}\n"

/-- Cumulative token count of a chunk list under the token-measuring
collaborator. -/
def sumTokens (measure : String → Nat) (l : List String) : Nat :=
  (l.map measure).sum

/-- Modelled from the spec: the chunk-selection step of the query-pruning
helper (`get_pruned_query` in chain/query_proc.py, which is not part of the
sources given here).  Chunks are taken in their given order while they fit
the remaining token budget, and selection stops at the first chunk that
would exceed it; no chunk is split. -/
def takeWithinBudget (measure : String → Nat) : Nat → List String → List String
  | _, [] => []
  | budget, c :: rest =>
    if measure c ≤ budget then
      c :: takeWithinBudget measure (budget - measure c) rest
    else []

/-- Modelled from the spec: the chunks `get_pruned_query` keeps for a given
model context `limit`, after budgeting for the query and the template. -/
def includedChunks (measure : String → Nat) (limit : Nat)
    (query template : String) (chunks : List String) : List String :=
  takeWithinBudget measure (limit - (measure query + measure template)) chunks

/-- Modelled from the spec: merging the query and the selected chunks into
the template's `{context}` and `{question}` placeholders. -/
def assemblePrompt (template query : String) (chunks : List String) : String :=
  (template.replace "{context}" (String.intercalate "\n\n" chunks)).replace
    "{question}" query

/-- Modelled from the spec: `get_pruned_query(llm, app_config, query,
template, chunks)` from chain/query_proc.py (not among the sources given
here).  It fails with `ContextTooSmallError` when the query plus template
alone exceed the model's context limit, and otherwise assembles the prompt
from the greedily selected chunk sequence. -/
def get_pruned_query (measure : String → Nat) (limit : Nat)
    (query template : String) (chunks : List String) :
    Except ChainError String :=
  if limit < measure query + measure template then
    .error .contextTooSmall
  else
    .ok (assemblePrompt template query
      (includedChunks measure limit query template chunks))

/-- Expression `[end_separator] if end_separator else None` from `process_query`. -/
def stopOf (end_separator : String) : Option (List String) :=
  if end_separator ≠ "" then some [end_separator] else none

/-- The walrus filter `if (source := d.metadata.get('source'))` of the set
comprehension: the source value when present and truthy (non-empty). -/
def truthySource (d : RetrievedDocument) : Option String :=
  match d.source with
  | some s => if s ≠ "" then some s else none
  | none => none

/-- Expression `list({source for d in context_docs if (source := d.metadata.get('source'))})`:
the truthy source values, deduplicated (the Python `set` has no meaningful
order; the deduplicated list stands for it). -/
def unique_sources (docs : List RetrievedDocument) : List String :=
  (docs.filterMap truthySource).dedup

/-- Function `process_query` of one_shot.py.  The LLM collaborator is a function of
prompt, stop list and user id; each call made to it is recorded as an
`InvokeEvent`.  The tuple subscript
`(query, get_pruned_query(...))[no_ctx_template is not None]` selects the
bare query when no template is supplied and the pruned merge otherwise (the
helper itself is modelled from the spec, see `get_pruned_query`). -/
def process_query (llm : String → Option (List String) → String → String)
    (measure : String → Nat) (limit : Nat) (user_id : String) (query : String)
    (no_ctx_template : Option String) (end_separator : String) :
    Except ChainError LLMOutput × List InvokeEvent :=
  let stop := stopOf end_separator
  match no_ctx_template with
  | none =>
    (.ok ⟨pyStrip (llm query stop user_id), []⟩, [⟨query, stop, user_id⟩])
  | some t =>
    match get_pruned_query measure limit query t [] with
    | .error e => (.error e, [])
    | .ok prompt =>
      (.ok ⟨pyStrip (llm prompt stop user_id), []⟩, [⟨prompt, stop, user_id⟩])

/-- Function `process_context_query` of one_shot.py, parameterised over the results
of its collaborators: `context_docs` is what `get_context_docs` returned
from the vector store, `chunksOf` stands for `get_context_chunks`
(chain/context.py, not among the sources given here), and the LLM
collaborator records its calls as in `process_query`.  Zero retrieved
documents raise `ContextException` before any LLM call; a caller-supplied
template replaces `_LLM_TEMPLATE` via Python's truthy `or`; the stop list is
`[end_separator]` unconditionally. -/
def process_context_query
    (llm : String → Option (List String) → String → String)
    (measure : String → Nat) (limit : Nat) (user_id : String) (query : String)
    (context_docs : List RetrievedDocument)
    (chunksOf : List RetrievedDocument → List String)
    (template : Option String) (end_separator : String) :
    Except ChainError LLMOutput × List InvokeEvent :=
  if context_docs.length = 0 then
    (.error (.contextError
      "No documents retrieved, please index a few documents first"), [])
  else
    match get_pruned_query measure limit query (pyOrS template LLM_TEMPLATE)
        (chunksOf context_docs) with
    | .error e => (.error e, [])
    | .ok prompt =>
      (.ok ⟨pyStrip (llm prompt (some [end_separator]) user_id),
        unique_sources context_docs⟩,
       [⟨prompt, some [end_separator], user_id⟩])

theorem takeWithinBudget_spec (measure : String → Nat) (l : List String) :
    ∀ budget : Nat, ∃ k, k ≤ l.length ∧
      takeWithinBudget measure budget l = l.take k ∧
      sumTokens measure (l.take k) ≤ budget ∧
      ∀ hk : k < l.length,
        budget < sumTokens measure (l.take k) + measure (l.get ⟨k, hk⟩) := by
  induction l with
  | nil =>
    intro budget
    refine ⟨0, Nat.le_refl 0, rfl, by simp [sumTokens], fun hk => absurd hk ?_⟩
    simp
  | cons c rest ih =>
    intro budget
    by_cases hc : measure c ≤ budget
    · obtain ⟨k, hk_le, heq, hsum, hnext⟩ := ih (budget - measure c)
      refine ⟨k + 1, by simpa using hk_le, ?_, ?_, ?_⟩
      · simp only [takeWithinBudget, hc, if_true, List.take_succ_cons, heq,
          if_pos]
      · simp only [List.take_succ_cons, sumTokens, List.map_cons,
          List.sum_cons]
        have := hsum
        simp only [sumTokens] at this
        omega
      · intro hklt
        have hklt' : k < rest.length := by simpa using hklt
        have hg : (c :: rest).get ⟨k + 1, hklt⟩ = rest.get ⟨k, hklt'⟩ := rfl
        rw [hg]
        have := hnext hklt'
        simp only [sumTokens] at this ⊢
        simp only [List.take_succ_cons, List.map_cons, List.sum_cons]
        omega
    · refine ⟨0, Nat.zero_le _, ?_, by simp [sumTokens], ?_⟩
      · simp only [takeWithinBudget, hc, if_neg, if_false]
        rfl
      · intro hk
        have hg : (c :: rest).get ⟨0, hk⟩ = c := rfl
        rw [hg]
        simp only [List.take_zero, sumTokens, List.map_nil, List.sum_nil]
        omega

theorem truthySource_eq_some (d : RetrievedDocument) (s : String) :
    truthySource d = some s ↔ s ≠ "" ∧ d.source = some s := by
  cases hsrc : d.source with
  | none => simp [truthySource, hsrc]
  | some t =>
    by_cases ht : t = ""
    · subst ht
      simp [truthySource, hsrc]
      tauto
    · simp [truthySource, hsrc, ht]
      rintro rfl
      exact ht

theorem mem_unique_sources (docs : List RetrievedDocument) (s : String) :
    s ∈ unique_sources docs ↔ s ≠ "" ∧ ∃ d ∈ docs, d.source = some s := by
  unfold unique_sources
  rw [List.mem_dedup, List.mem_filterMap]
  constructor
  · rintro ⟨d, hd, hf⟩
    obtain ⟨hs, hsrc⟩ := (truthySource_eq_some d s).1 hf
    exact ⟨hs, d, hd, hsrc⟩
  · rintro ⟨hs, d, hd, hsrc⟩
    exact ⟨d, hd, (truthySource_eq_some d s).2 ⟨hs, hsrc⟩⟩

/-- C3: a context-mode query whose retrieval returned zero documents makes
`process_context_query` raise `ContextException` (the spec's
`NoContextError`) with its fixed message, and no call to the LLM
collaborator's `invoke` is recorded. -/
theorem C3_no_docs_raises
    (llm : String → Option (List String) → String → String)
    (measure : String → Nat) (limit : Nat) (user_id query : String)
    (chunksOf : List RetrievedDocument → List String)
    (template : Option String) (end_separator : String) :
    process_context_query llm measure limit user_id query [] chunksOf
        template end_separator =
      (.error (.contextError
        "No documents retrieved, please index a few documents first"), []) :=
  rfl

/-- C7 counterexample: a retrieved document whose `source` metadata value is
the empty string is dropped by the truthiness filter, so the returned
`LLMOutput.sources` does not contain that distinct value exactly once (it
contains it zero times). -/
theorem C7_counterexample :
    (process_context_query (fun _ _ _ => "out") (fun _ => 0) 0 "u" "q"
        [⟨"chunk", some ""⟩] (fun docs => docs.map RetrievedDocument.content)
        (some "T") "").1 =
      .ok ⟨"out", []⟩ ∧
    ([(⟨"chunk", some ""⟩ : RetrievedDocument)].map RetrievedDocument.source)
      = [some ""] ∧
    ¬ (([] : List String).count "" = 1) :=
  ⟨rfl, rfl, by decide⟩

/-- C7 amended: whenever `process_context_query` returns an `LLMOutput`, its
`sources` list holds each distinct non-empty `source` metadata value of the
retrieved documents exactly once (it is duplicate-free, and a string is in
it exactly when it is the non-empty source value of some retrieved
document); documents whose source is absent or empty contribute nothing. -/
theorem C7_sources_dedup
    (llm : String → Option (List String) → String → String)
    (measure : String → Nat) (limit : Nat) (user_id query : String)
    (context_docs : List RetrievedDocument)
    (chunksOf : List RetrievedDocument → List String)
    (template : Option String) (end_separator : String)
    (out : LLMOutput) (evs : List InvokeEvent)
    (h : process_context_query llm measure limit user_id query context_docs
      chunksOf template end_separator = (.ok out, evs)) :
    out.sources.Nodup ∧
    ∀ s, s ∈ out.sources ↔
      s ≠ "" ∧ ∃ d ∈ context_docs, d.source = some s := by
  have hsrc : out.sources = unique_sources context_docs := by
    unfold process_context_query at h
    by_cases h0 : context_docs.length = 0
    · rw [if_pos h0] at h
      exact absurd (congrArg Prod.fst h) (by simp)
    · rw [if_neg h0] at h
      cases hg : get_pruned_query measure limit query
          (pyOrS template LLM_TEMPLATE) (chunksOf context_docs) with
      | error e =>
        rw [hg] at h
        exact absurd (congrArg Prod.fst h) (by simp)
      | ok prompt =>
        rw [hg] at h
        have := congrArg Prod.fst h
        simp only at this
        rw [← congrArg LLMOutput.sources (Except.ok.inj this)]
  rw [hsrc]
  exact ⟨List.nodup_dedup _, fun s => mem_unique_sources context_docs s⟩

/-- C7 amended witness: two documents sharing the source `"a"` yield the
source list `["a"]`, duplicate-free and containing exactly the non-empty
source values. -/
theorem C7_witness :
    (LLMOutput.mk "out" ["a"]).sources.Nodup ∧
    ∀ s, s ∈ (LLMOutput.mk "out" ["a"]).sources ↔
      s ≠ "" ∧ ∃ d ∈ ([⟨"c", some "a"⟩, ⟨"d", some "a"⟩] :
        List RetrievedDocument), d.source = some s :=
  C7_sources_dedup (fun _ _ _ => "out") (fun _ => 0) 0 "u" "q"
    [⟨"c", some "a"⟩, ⟨"d", some "a"⟩] (fun _ => []) (some "T") ""
    ⟨"out", ["a"]⟩ [⟨assemblePrompt "T" "q" [], some [""], "u"⟩] rfl

/-- C8: in the no-context mode, with no template the prompt handed to the
LLM collaborator is exactly the query string, and with a template it is
whatever the pruning helper produced for that query and template (with an
empty chunk list). -/
theorem C8_no_ctx_prompt
    (llm : String → Option (List String) → String → String)
    (measure : String → Nat) (limit : Nat) (user_id query : String)
    (end_separator : String) :
    (process_query llm measure limit user_id query none end_separator).2 =
      [⟨query, stopOf end_separator, user_id⟩] ∧
    ∀ t prompt, get_pruned_query measure limit query t [] = .ok prompt →
      (process_query llm measure limit user_id query (some t)
        end_separator).2 = [⟨prompt, stopOf end_separator, user_id⟩] := by
  refine ⟨rfl, ?_⟩
  intro t prompt hok
  simp only [process_query, hok]

/-- C8 witness: with query `"q"`, no template passes `"q"` through untouched
and template `"T"` passes the helper's merge through. -/
theorem C8_witness :
    ((process_query (fun _ _ _ => "out") (fun _ => 0) 0 "u" "q" none "").2 =
      [⟨"q", stopOf "", "u"⟩]) ∧
    get_pruned_query (fun _ => 0) 0 "q" "T" [] =
      .ok (assemblePrompt "T" "q" []) ∧
    ((process_query (fun _ _ _ => "out") (fun _ => 0) 0 "u" "q" (some "T")
        "").2 = [⟨assemblePrompt "T" "q" [], stopOf "", "u"⟩]) :=
  ⟨(C8_no_ctx_prompt (fun _ _ _ => "out") (fun _ => 0) 0 "u" "q" "").1, rfl,
   (C8_no_ctx_prompt (fun _ _ _ => "out") (fun _ => 0) 0 "u" "q" "").2 "T"
     (assemblePrompt "T" "q" []) rfl⟩

/-- C9: when the query plus template alone exceed the model limit the
pruning helper fails with `ContextTooSmallError`; otherwise, when the
cumulative token count of query, template and all chunks exceeds the limit,
the selected chunks are a strict initial segment `take k` of the chunk
sequence, the selection fits the limit, and appending the very next chunk
would exceed it. -/
theorem C9_greedy_strict_initial_segment (measure : String → Nat)
    (limit : Nat) (query template : String) (chunks : List String) :
    (limit < measure query + measure template →
      get_pruned_query measure limit query template chunks =
        .error .contextTooSmall) ∧
    (measure query + measure template ≤ limit →
      limit < measure query + measure template + sumTokens measure chunks →
      ∃ k, ∃ hk : k < chunks.length,
        includedChunks measure limit query template chunks = chunks.take k ∧
        measure query + measure template + sumTokens measure (chunks.take k)
          ≤ limit ∧
        limit < measure query + measure template +
          sumTokens measure (chunks.take k) +
          measure (chunks.get ⟨k, hk⟩)) := by
  constructor
  · intro hsmall
    simp only [get_pruned_query, hsmall, if_pos]
  · intro hfit hover
    obtain ⟨k, hk_le, heq, hsum, hnext⟩ :=
      takeWithinBudget_spec measure chunks
        (limit - (measure query + measure template))
    have hklt : k < chunks.length := by
      rcases Nat.lt_or_ge k chunks.length with h | h
      · exact h
      · exfalso
        have hkeq : k = chunks.length := Nat.le_antisymm hk_le h
        rw [hkeq, List.take_length] at hsum
        omega
    refine ⟨k, hklt, heq, by omega, ?_⟩
    have := hnext hklt
    omega

/-- C9 witness: measuring by string length with limit 5, query `"qq"` and
template `"tt"` (base 4), the chunks `["a", "bbbb"]` overflow the limit and
exactly `["a"]` is selected. -/
theorem C9_witness :
    (String.length "qq" + String.length "tt" ≤ 5 ∧
     5 < String.length "qq" + String.length "tt" +
       sumTokens String.length ["a", "bbbb"]) ∧
    (∃ k, ∃ hk : k < (["a", "bbbb"] : List String).length,
      includedChunks String.length 5 "qq" "tt" ["a", "bbbb"] =
        (["a", "bbbb"] : List String).take k ∧
      String.length "qq" + String.length "tt" +
        sumTokens String.length ((["a", "bbbb"] : List String).take k) ≤ 5 ∧
      5 < String.length "qq" + String.length "tt" +
        sumTokens String.length ((["a", "bbbb"] : List String).take k) +
        String.length ((["a", "bbbb"] : List String).get ⟨k, hk⟩)) :=
  ⟨⟨by decide, by decide⟩,
   (C9_greedy_strict_initial_segment String.length 5 "qq" "tt"
     ["a", "bbbb"]).2 (by decide) (by decide)⟩

/-- C10: every LLM call made by `process_context_query` passes
`stop = [end_separator]` even when the separator is the empty string, while
every LLM call made by `process_query` passes `stop = None` for an empty
separator and `[end_separator]` otherwise. -/
theorem C10_stop_argument
    (llm : String → Option (List String) → String → String)
    (measure : String → Nat) (limit : Nat) (user_id query : String)
    (context_docs : List RetrievedDocument)
    (chunksOf : List RetrievedDocument → List String)
    (template : Option String) (end_separator : String) :
    (∀ e ∈ (process_context_query llm measure limit user_id query
        context_docs chunksOf template end_separator).2,
      e.stop = some [end_separator]) ∧
    (∀ e ∈ (process_query llm measure limit user_id query template
        end_separator).2,
      e.stop = if end_separator = "" then none else some [end_separator]) := by
  have hstop : stopOf end_separator =
      if end_separator = "" then none else some [end_separator] := by
    unfold stopOf
    by_cases hsep : end_separator = "" <;> simp [hsep]
  constructor
  · intro e he
    unfold process_context_query at he
    by_cases h0 : context_docs.length = 0
    · rw [if_pos h0] at he
      exact absurd he (by simp)
    · rw [if_neg h0] at he
      cases hg : get_pruned_query measure limit query
          (pyOrS template LLM_TEMPLATE) (chunksOf context_docs) with
      | error err =>
        rw [hg] at he
        exact absurd he (by simp)
      | ok prompt =>
        rw [hg] at he
        obtain rfl : e = ⟨prompt, some [end_separator], user_id⟩ := by
          simpa using he
        rfl
  · intro e he
    cases template with
    | none =>
      simp only [process_query] at he
      obtain rfl : e = ⟨query, stopOf end_separator, user_id⟩ := by
        simpa using he
      exact hstop
    | some t =>
      cases hg : get_pruned_query measure limit query t [] with
      | error err =>
        simp only [process_query, hg] at he
        exact absurd he (by simp)
      | ok prompt =>
        simp only [process_query, hg] at he
        obtain rfl : e = ⟨prompt, stopOf end_separator, user_id⟩ := by
          simpa using he
        exact hstop

/-- C10 witness: with the empty separator, the context call still passes
`stop = [""]`, while the no-context call passes `stop = None`. -/
theorem C10_witness :
    (InvokeEvent.mk (assemblePrompt "T" "q" []) (some [""]) "u").stop
        = some [""] ∧
    (InvokeEvent.mk "q" none "u").stop
        = (if ("" : String) = "" then none else some [("" : String)]) :=
  ⟨(C10_stop_argument (fun _ _ _ => "out") (fun _ => 0) 0 "u" "q"
      [⟨"c", some "a"⟩] (fun _ => []) (some "T") "").1
      ⟨assemblePrompt "T" "q" [], some [""], "u"⟩ (List.Mem.head _),
   (C10_stop_argument (fun _ _ _ => "out") (fun _ => 0) 0 "u" "q"
      [⟨"c", some "a"⟩] (fun _ => []) none "").2
      ⟨"q", none, "u"⟩ (List.Mem.head _)⟩

end OneShot
